import Mathlib

/-!
Verification of the agent-mail core: file-reservation lease engine, contact/link
admission engine, and message dispatch, shallowly embedded from the TypeScript
source.  ISO-8601 timestamp strings (whose lexicographic order coincides with
chronological order) are modelled as naturals; the SQL-backed row stores (which
keep rows in insertion order, return the first matching row for point lookups,
and update every matching row) are modelled as Lean lists with `find?`, `filter`
and `map`.
-/

namespace AgentMail

/-! ## Glob pattern matching (SimpleGlobAdapter)

`patternToRegex` compiles a glob pattern to an anchored regular expression;
we embed the compilation as a token list and give the token list its regex
semantics directly. -/

/-- One compiled unit of a glob pattern, mirroring the regex fragments emitted
by `patternToRegex`: `lit c` (a literal character, possibly regex-escaped),
`oneNonSlash` (`?` → `[^/]`), `anyNonSlashStar` (`*` → `[^/]*`),
`anyStar` (`**` not before `/` → `.*`), `anyStarSlashOpt` (`**/` → `(?:.*/)?`)
and `cls neg content` (a character class). -/
inductive Tok where
  | lit (c : Char)
  | oneNonSlash
  | anyNonSlashStar
  | anyStar
  | anyStarSlashOpt
  | cls (neg : Bool) (content : List Char)
  deriving Repr, DecidableEq

/-- Membership of a character in a regex character class body: a `-` between
two characters denotes a range, every other character denotes itself. -/
def classContains : List Char → Char → Bool
  | a :: '-' :: b :: rest, c => (a ≤ c && c ≤ b) || classContains rest c
  | a :: rest, c => (a == c) || classContains rest c
  | [], _ => false

/-- Compile a glob pattern to tokens, mirroring the scanning loop of
`patternToRegex`: `**/` and `**` are recognised before `*`; a `[` optionally
negated by `!` or `^` collects its body up to the next `]` (or the end of the
pattern); every other character is a literal. -/
def compileGlob : List Char → List Tok
  | [] => []
  | '*' :: '*' :: '/' :: rest => Tok.anyStarSlashOpt :: compileGlob rest
  | '*' :: '*' :: rest => Tok.anyStar :: compileGlob rest
  | '*' :: rest => Tok.anyNonSlashStar :: compileGlob rest
  | '?' :: rest => Tok.oneNonSlash :: compileGlob rest
  | '[' :: '!' :: rest =>
    Tok.cls true (rest.takeWhile (fun c => c ≠ ']')) ::
      compileGlob ((rest.drop (rest.takeWhile (fun c => c ≠ ']')).length).drop 1)
  | '[' :: '^' :: rest =>
    Tok.cls true (rest.takeWhile (fun c => c ≠ ']')) ::
      compileGlob ((rest.drop (rest.takeWhile (fun c => c ≠ ']')).length).drop 1)
  | '[' :: rest =>
    Tok.cls false (rest.takeWhile (fun c => c ≠ ']')) ::
      compileGlob ((rest.drop (rest.takeWhile (fun c => c ≠ ']')).length).drop 1)
  | c :: rest => Tok.lit c :: compileGlob rest
termination_by p => p.length
decreasing_by
  all_goals simp [List.length_drop]
  all_goals omega

mutual

/-- Anchored matching of a compiled token list against a path, the semantics of
the regex produced by `patternToRegex`. -/
def tokensMatch : List Tok → List Char → Bool
  | [], s => s.isEmpty
  | Tok.lit c :: ts, s =>
    match s with
    | [] => false
    | d :: r => c == d && tokensMatch ts r
  | Tok.oneNonSlash :: ts, s =>
    match s with
    | [] => false
    | d :: r => d ≠ '/' && tokensMatch ts r
  | Tok.cls neg content :: ts, s =>
    match s with
    | [] => false
    | d :: r => (if neg then !classContains content d else classContains content d)
        && tokensMatch ts r
  | Tok.anyNonSlashStar :: ts, s =>
    tokensMatch ts s ||
      match s with
      | [] => false
      | d :: r => d ≠ '/' && tokensMatch (Tok.anyNonSlashStar :: ts) r
  | Tok.anyStar :: ts, s =>
    tokensMatch ts s ||
      match s with
      | [] => false
      | _ :: r => tokensMatch (Tok.anyStar :: ts) r
  | Tok.anyStarSlashOpt :: ts, s => tokensMatch ts s || slashScan ts s
termination_by ts s => (ts.length, s.length)

/-- `slashScan ts s` is true when some suffix of `s` lying immediately after a
`'/'` character matches `ts`: the `.*/` alternative of `(?:.*/)?`. -/
def slashScan : List Tok → List Char → Bool
  | _, [] => false
  | ts, d :: r => (d == '/' && tokensMatch ts r) || slashScan ts r
termination_by ts s => (ts.length, s.length)

end

/-- `SimpleGlobAdapter.matches`: test a literal path against a glob pattern. -/
def globMatches (pattern path : String) : Bool :=
  tokensMatch (compileGlob pattern.data) path.data

/-! ## Pattern helpers of `ReservationOperations` -/

/-- `String.prototype.split("/")` on the character list: always returns at
least one (possibly empty) segment. -/
def splitSlash : List Char → List (List Char)
  | [] => [[]]
  | c :: rest =>
    if c = '/' then [] :: splitSlash rest
    else
      match splitSlash rest with
      | seg :: segs => (c :: seg) :: segs
      | [] => [[c]]

/-- `Array.prototype.join("/")` on segment lists. -/
def joinSlash : List (List Char) → List Char
  | [] => []
  | [seg] => seg
  | seg :: segs => seg ++ '/' :: joinSlash segs

/-- A path segment free of the wildcard characters `*`, `?`, `[` (the segments
`getBasePath` keeps). -/
def segIsStatic (seg : List Char) : Bool :=
  !(seg.contains '*' || seg.contains '?' || seg.contains '[')

/-- `getBasePath`: the literal path-segment prefix preceding the first
wildcard-bearing segment, joined back with `/`. -/
def getBasePath (p : String) : String :=
  ⟨joinSlash ((splitSlash p.data).takeWhile segIsStatic)⟩

/-- Index of the last `'/'` in the list, if any (`String.prototype.lastIndexOf`,
with `none` for the -1 case). -/
def lastSlashPos : List Char → Option Nat
  | [] => none
  | c :: rest =>
    match lastSlashPos rest with
    | some i => some (i + 1)
    | none => if c = '/' then some 0 else none

/-- `getDirectory`: the part before the last slash when that slash has positive
index, otherwise the empty string. -/
def getDirectory (p : String) : String :=
  match lastSlashPos p.data with
  | some i => if 0 < i then ⟨p.data.take i⟩ else ""
  | none => ""

/-- `getFileName`: the part after the last slash, or the whole pattern when it
has no slash. -/
def getFileName (p : String) : String :=
  match lastSlashPos p.data with
  | some i => ⟨p.data.drop (i + 1)⟩
  | none => p

/-- `pattern.includes("**")`: some adjacent pair of characters is `**`. -/
def hasStarStar : List Char → Bool
  | c :: d :: rest => (c == '*' && d == '*') || hasStarStar (d :: rest)
  | _ => false

/-- `a.startsWith(b)` of JavaScript: `b` is a string prefix of `a`. -/
def strStartsWith (a b : String) : Bool :=
  b.data.isPrefixOf a.data

/-- `s.includes(c)` for a single character. -/
def containsChar (s : String) (c : Char) : Bool :=
  s.data.contains c

/-- `ReservationOperations.patternsOverlap`: the conservative pattern-vs-pattern
overlap heuristic.  If either pattern contains `**` and the static base paths
are prefix-related, overlap; else if either pattern matches the other taken as
a literal path, overlap; else if both share the same parent directory and a
filename portion contains `*` or the filename portions coincide, overlap. -/
def patternsOverlap (p1 p2 : String) : Bool :=
  if (hasStarStar p1.data || hasStarStar p2.data)
      && (strStartsWith (getBasePath p1) (getBasePath p2)
          || strStartsWith (getBasePath p2) (getBasePath p1)) then
    true
  else if globMatches p1 p2 || globMatches p2 p1 then
    true
  else if getDirectory p1 == getDirectory p2
      && (containsChar (getFileName p1) '*' || containsChar (getFileName p2) '*'
          || getFileName p1 == getFileName p2) then
    true
  else
    false

/-- A character that is not one of the wildcard characters `*`, `?`, `[`. -/
def notWild (c : Char) : Bool :=
  !(c == '*' || c == '?' || c == '[')

/-- The maximal run of literal-character tokens at the head of a compiled
pattern. -/
def leadingLits : List Tok → List Char
  | Tok.lit c :: ts => c :: leadingLits ts
  | _ => []

/-- A filename portion containing any wildcard character. -/
def hasWildcardChar (s : String) : Bool :=
  containsChar s '*' || containsChar s '?' || containsChar s '['

/-- The overlap heuristic exactly as the specification words it, reading
"wildcard character" as any of the glob wildcards `*`, `?`, `[`: when either
pattern contains a recursive wildcard segment, overlap holds precisely when
one static base path is a prefix of the other; otherwise overlap holds when
either pattern matches the other taken as a literal path; otherwise overlap
holds when both share the same parent directory and a filename portion
contains a wildcard character or the filename portions are identical. -/
def specPatternsOverlap (p1 p2 : String) : Bool :=
  if hasStarStar p1.data || hasStarStar p2.data then
    strStartsWith (getBasePath p1) (getBasePath p2)
      || strStartsWith (getBasePath p2) (getBasePath p1)
  else if globMatches p1 p2 || globMatches p2 p1 then
    true
  else if getDirectory p1 == getDirectory p2
      && (hasWildcardChar (getFileName p1) || hasWildcardChar (getFileName p2)
          || getFileName p1 == getFileName p2) then
    true
  else
    false

/-- The specification's three-step algorithm with "wildcard character"
narrowed to the star character alone, which is what the source tests for in
the same-directory step. -/
def specPatternsOverlapStar (p1 p2 : String) : Bool :=
  if hasStarStar p1.data || hasStarStar p2.data then
    strStartsWith (getBasePath p1) (getBasePath p2)
      || strStartsWith (getBasePath p2) (getBasePath p1)
  else if globMatches p1 p2 || globMatches p2 p1 then
    true
  else if getDirectory p1 == getDirectory p2
      && (containsChar (getFileName p1) '*' || containsChar (getFileName p2) '*'
          || getFileName p1 == getFileName p2) then
    true
  else
    false

/-! ## Data model

Rows mirror the SQL schema (snake_case columns become camelCase fields).
The enum-typed columns (`contact_policy`, `status`, `kind`, `importance`) are
stored as raw strings, exactly as in the database rows that the operations
read back and compare with string equality. -/

structure AgentRow where
  id : Nat
  projectId : Nat
  name : String
  program : String
  model : String
  task : Option String
  inceptionTs : Nat
  lastActiveTs : Nat
  attachmentsPolicy : String
  contactPolicy : String
  deriving Repr, DecidableEq

structure AgentLinkRow where
  id : Nat
  requesterId : Nat
  responderId : Nat
  status : String
  createdTs : Nat
  updatedTs : Nat
  deriving Repr, DecidableEq

structure FileReservationRow where
  id : Nat
  projectId : Nat
  agentId : Nat
  pathPattern : String
  exclusive : Bool
  reason : Option String
  createdTs : Nat
  expiresTs : Nat
  releasedTs : Option Nat
  deriving Repr, DecidableEq

structure Attachment where
  filename : String
  contentType : String
  sizeBytes : Nat
  storage : String
  path : Option String
  data : Option String
  deriving Repr, DecidableEq

structure MessageRow where
  id : Nat
  projectId : Nat
  senderId : Nat
  threadId : String
  subject : String
  body : String
  importance : String
  requiresAck : Bool
  ackTtlSeconds : Option Nat
  attachments : List Attachment
  createdTs : Nat
  deriving Repr, DecidableEq

structure MessageRecipientRow where
  messageId : Nat
  agentId : Nat
  kind : String
  readTs : Option Nat
  ackTs : Option Nat
  deriving Repr, DecidableEq

/-- The backing store: each table is a list in insertion order (the in-memory
adapter iterates rows in insertion order, point lookups return the first
match, and updates touch every matching row); `next…Id` is the per-table
id sequence of the adapter. -/
structure DB where
  agents : List AgentRow
  links : List AgentLinkRow
  reservations : List FileReservationRow
  messages : List MessageRow
  recipients : List MessageRecipientRow
  nextLinkId : Nat
  nextReservationId : Nat
  nextMessageId : Nat
  deriving Repr, DecidableEq

/-- `SELECT * FROM agents WHERE id = ?` (first matching row). -/
def findAgent (s : DB) (id : Nat) : Option AgentRow :=
  s.agents.find? (fun a => a.id == id)

/-! ## LinkOperations -/

/-- `LinkOperations.getLinkBetween`: look the pair up in both directions,
`A → B` first. -/
def getLinkBetween (s : DB) (agentA agentB : Nat) : Option AgentLinkRow :=
  match s.links.find? (fun l => l.requesterId == agentA && l.responderId == agentB) with
  | some l => some l
  | none => s.links.find? (fun l => l.requesterId == agentB && l.responderId == agentA)

structure CanSendResult where
  allowed : Bool
  reason : String
  deriving Repr, DecidableEq

/-- `LinkOperations.canSend`: admission decision for one sender/recipient
pair, translated clause for clause from the source. -/
def canSend (s : DB) (senderId recipientId : Nat) : CanSendResult :=
  match findAgent s recipientId with
  | none => ⟨false, "blocked"⟩
  | some recipient =>
    let policy := recipient.contactPolicy
    let link := getLinkBetween s senderId recipientId
    if (link.map (fun l => l.status == "blocked")).getD false then
      ⟨false, "blocked"⟩
    else if policy == "block_all" then
      ⟨false, "block_all"⟩
    else if policy == "open" then
      ⟨true, "open"⟩
    else if (link.map (fun l => l.status == "approved")).getD false then
      ⟨true, "approved_contact"⟩
    else if policy == "auto" then
      match findAgent s senderId with
      | some sender =>
        if sender.program == recipient.program then
          ⟨true, "auto_approved"⟩
        else if (link.map (fun l => l.status == "pending")).getD false then
          ⟨false, "pending"⟩
        else
          ⟨false, "contacts_only"⟩
      | none =>
        if (link.map (fun l => l.status == "pending")).getD false then
          ⟨false, "pending"⟩
        else
          ⟨false, "contacts_only"⟩
    else if policy == "contacts_only" then
      if (link.map (fun l => l.status == "pending")).getD false then
        ⟨false, "pending"⟩
      else
        ⟨false, "contacts_only"⟩
    else
      ⟨false, "blocked"⟩

/-- The initial status of a freshly requested link: `"pending"` overridden to
`"approved"` for an `open` responder or an `auto` responder sharing the
requester's program, and to `"blocked"` for a `block_all` responder. -/
def initialLinkStatus (responder requester : AgentRow) : String :=
  if responder.contactPolicy == "open" then "approved"
  else if responder.contactPolicy == "auto"
      && requester.program == responder.program then "approved"
  else if responder.contactPolicy == "block_all" then "blocked"
  else "pending"

/-- `LinkOperations.requestLink`: return the existing link of the pair if one
exists in either direction, otherwise create one whose initial status is
derived from the responder's contact policy.  `t` is the creation timestamp. -/
def requestLink (s : DB) (requesterId responderId : Nat) (t : Nat) :
    Except String (AgentLinkRow × DB) :=
  match getLinkBetween s requesterId responderId with
  | some existing => .ok (existing, s)
  | none =>
    match getLinkBetween s responderId requesterId with
    | some reverse => .ok (reverse, s)
    | none =>
      match findAgent s responderId with
      | none => .error ("Agent " ++ toString responderId ++ " not found")
      | some responder =>
        match findAgent s requesterId with
        | none => .error ("Agent " ++ toString requesterId ++ " not found")
        | some requester =>
          let row : AgentLinkRow :=
            { id := s.nextLinkId, requesterId := requesterId,
              responderId := responderId,
              status := initialLinkStatus responder requester,
              createdTs := t, updatedTs := t }
          .ok (row, { s with links := s.links ++ [row], nextLinkId := s.nextLinkId + 1 })

/-! ## ReservationOperations -/

/-- One entry of a conflict check result. -/
structure ReservationConflict where
  pattern : String
  existing : FileReservationRow
  agentId : Nat
  agentName : String
  deriving Repr, DecidableEq

/-- `ReservationOperations.getActiveReservations`: rows of the project that are
not released (SQL filter), with expired rows then dropped in memory
(`expiresTs > now`). -/
def getActiveReservations (s : DB) (projectId t : Nat) : List FileReservationRow :=
  (s.reservations.filter
      (fun r => r.projectId == projectId && r.releasedTs == none)).filter
    (fun r => t < r.expiresTs)

/-- `ReservationOperations.checkConflicts`: compare every requested pattern
(outer loop) against every other agent's active exclusive reservation (inner
loop) with the overlap heuristic. -/
def checkConflicts (s : DB) (projectId agentId : Nat) (patterns : List String) (t : Nat) :
    List ReservationConflict :=
  let otherReservations :=
    (getActiveReservations s projectId t).filter
      (fun r => r.agentId != agentId && r.exclusive)
  patterns.flatMap (fun pattern =>
    (otherReservations.filter (fun ex => patternsOverlap pattern ex.pathPattern)).map
      (fun ex =>
        { pattern := pattern, existing := ex, agentId := ex.agentId,
          agentName := ((findAgent s ex.agentId).map (fun a => a.name)).getD "Unknown" }))

/-- One line of the aggregate conflict error message. -/
def conflictDetail (c : ReservationConflict) : String :=
  "\"" ++ c.pattern ++ "\" conflicts with " ++ c.agentName ++
    "\x27s reservation on \"" ++ c.existing.pathPattern ++ "\""

/-- The rows inserted by the creation loop of `reserveFiles`: one per pattern,
with consecutive ids and one shared `createdTs`/`expiresTs` pair. -/
def mkReservations (projectId agentId : Nat) (exclusive : Bool) (reason : Option String)
    (createdTs expiresTs : Nat) : Nat → List String → List FileReservationRow
  | _, [] => []
  | nextId, p :: ps =>
    { id := nextId, projectId := projectId, agentId := agentId, pathPattern := p,
      exclusive := exclusive, reason := reason, createdTs := createdTs,
      expiresTs := expiresTs, releasedTs := none }
      :: mkReservations projectId agentId exclusive reason createdTs expiresTs (nextId + 1) ps

/-- `ReservationOperations.reserveFiles`: reject the whole batch with one
aggregate error when the reservation is exclusive and conflicts exist,
otherwise insert one row per pattern.  `t` is the current time;
`expiresTs = t + ttlSeconds`. -/
def reserveFiles (s : DB) (agentId : Nat) (patterns : List String)
    (exclusiveOpt : Option Bool) (reasonOpt : Option String) (ttlOpt : Option Nat)
    (t : Nat) : Except String (List FileReservationRow × DB) :=
  let exclusive := exclusiveOpt.getD true
  let ttlSeconds := ttlOpt.getD 1800
  match findAgent s agentId with
  | none => .error ("Agent " ++ toString agentId ++ " not found")
  | some agent =>
    let conflicts := checkConflicts s agent.projectId agentId patterns t
    if !conflicts.isEmpty && exclusive then
      .error ("File reservation conflicts: " ++
        String.intercalate "; " (conflicts.map conflictDetail))
    else
      let rows := mkReservations agent.projectId agentId exclusive reasonOpt
        t (t + ttlSeconds) s.nextReservationId patterns
      .ok (rows,
        { s with reservations := s.reservations ++ rows,
                 nextReservationId := s.nextReservationId + patterns.length })

/-- Effect of one renewal `UPDATE` on one row: rows matching the id whose
`releasedTs` is null get the new `expiresTs`, all others stay unchanged. -/
def renewRow (id newExpires : Nat) (r : FileReservationRow) : FileReservationRow :=
  if r.id == id && r.releasedTs == none then { r with expiresTs := newExpires } else r

/-- One `UPDATE … WHERE id = ? AND released_ts IS NULL` of the renewal loop:
the count of affected rows and the rewritten table. -/
def renewOne (rows : List FileReservationRow) (id newExpires : Nat) :
    Nat × List FileReservationRow :=
  (rows.countP (fun r => r.id == id && r.releasedTs == none),
   rows.map (renewRow id newExpires))

/-- `ReservationOperations.renewReservations`: rewrite `expiresTs` to
`t + ttlSeconds` for every listed id whose row is not released, returning the
number of rows touched. -/
def renewReservations (s : DB) (ids : List Nat) (ttlSeconds t : Nat) : Nat × DB :=
  let newExpires := t + ttlSeconds
  let result := ids.foldl
    (fun (acc : Nat × List FileReservationRow) id =>
      let u := renewOne acc.2 id newExpires
      (acc.1 + u.1, u.2))
    (0, s.reservations)
  (result.1, { s with reservations := result.2 })

/-! ## MessageOperations -/

structure SendRecipient where
  agentId : Nat
  kind : String
  deriving Repr, DecidableEq

structure SendMessageInput where
  senderId : Nat
  recipients : List SendRecipient
  subject : String
  body : String
  threadId : Option String
  importance : Option String
  requiresAck : Option Bool
  ackTtlSeconds : Option Nat
  attachments : Option (List Attachment)
  enforceContactPolicy : Option Bool
  deriving Repr, DecidableEq

/-- `MessageOperations.sendMessage`: validate sender and recipients, insert the
message row and one recipient row per requested recipient.  `t` is the current
time; `freshThread` stands for the UUID generated when no thread id is
supplied. -/
def msgSendMessage (s : DB) (input : SendMessageInput) (t : Nat) (freshThread : String) :
    Except String (MessageRow × DB) :=
  let threadId := input.threadId.getD freshThread
  match findAgent s input.senderId with
  | none => .error ("Sender agent " ++ toString input.senderId ++ " not found")
  | some sender =>
    match input.recipients.find? (fun r => (findAgent s r.agentId).isNone) with
    | some missing => .error ("Recipient agent " ++ toString missing.agentId ++ " not found")
    | none =>
      let msg : MessageRow :=
        { id := s.nextMessageId, projectId := sender.projectId,
          senderId := input.senderId, threadId := threadId,
          subject := input.subject, body := input.body,
          importance := input.importance.getD "normal",
          requiresAck := input.requiresAck.getD false,
          ackTtlSeconds := input.ackTtlSeconds,
          attachments := input.attachments.getD [],
          createdTs := t }
      let recRows : List MessageRecipientRow := input.recipients.map (fun r =>
        { messageId := msg.id, agentId := r.agentId, kind := r.kind,
          readTs := none, ackTs := none })
      .ok (msg,
        { s with messages := s.messages ++ [msg],
                 recipients := s.recipients ++ recRows,
                 nextMessageId := s.nextMessageId + 1 })

/-- `SELECT * FROM messages WHERE id = ?`. -/
def getMessage (s : DB) (id : Nat) : Option MessageRow :=
  s.messages.find? (fun m => m.id == id)

/-- `MessageOperations.getRecipients`: the recipient rows of one message, in
insertion order. -/
def getRecipients (s : DB) (messageId : Nat) : List MessageRecipientRow :=
  s.recipients.filter (fun r => r.messageId == messageId)

/-- `MessageOperations.replyMessage`: reply to `originalMessageId` within its
thread; the recipient list is the original sender (as `to`, when different
from the new sender) followed by the original recipients minus the new sender,
kinds preserved. -/
def replyMessage (s : DB) (originalMessageId senderId : Nat) (body : String)
    (attachments : Option (List Attachment)) (t : Nat) (freshThread : String) :
    Except String (MessageRow × DB) :=
  match getMessage s originalMessageId with
  | none => .error ("Original message " ++ toString originalMessageId ++ " not found")
  | some original =>
    let recipients := getRecipients s originalMessageId
    let replyRecipients : List SendRecipient :=
      (if original.senderId != senderId then
        [{ agentId := original.senderId, kind := "to" }]
      else []) ++
      (recipients.filter (fun r => r.agentId != senderId)).map
        (fun r => { agentId := r.agentId, kind := r.kind })
    msgSendMessage s
      { senderId := senderId, recipients := replyRecipients,
        subject := "Re: " ++ original.subject, body := body,
        threadId := some original.threadId,
        importance := some original.importance,
        requiresAck := none, ackTtlSeconds := none,
        attachments := attachments, enforceContactPolicy := none }
      t freshThread

/-- `MessageOperations.markRead`: `UPDATE message_recipients SET read_ts = ?
WHERE message_id = ? AND agent_id = ? AND read_ts IS NULL` — every matching
row with a null `read_ts` gets the timestamp, all other rows stay as they
are. -/
def markRead (s : DB) (messageId agentId t : Nat) : DB :=
  { s with recipients := s.recipients.map (fun r =>
      if r.messageId == messageId && r.agentId == agentId && r.readTs == none then
        { r with readTs := some t }
      else r) }

/-! ## AgentMailCore dispatch wrappers -/

structure BlockedRecipient where
  agentId : Nat
  reason : String
  deriving Repr, DecidableEq

structure SendMessageResult where
  message : Option MessageRow
  blockedRecipients : List BlockedRecipient
  sent : Bool
  deriving Repr, DecidableEq

/-- The recipients of `input` that pass `canSend` (the allowed subset of the
policy-filtering loop shared by the two dispatch entry points). -/
def allowedRecipients (s : DB) (input : SendMessageInput) : List SendRecipient :=
  input.recipients.filter (fun r => (canSend s input.senderId r.agentId).allowed)

/-- The recipients of `input` that fail `canSend`, each paired with its denial
reason (the blocked list of the policy-filtering loop). -/
def blockedRecipientsOf (s : DB) (input : SendMessageInput) : List BlockedRecipient :=
  (input.recipients.filter (fun r => !(canSend s input.senderId r.agentId).allowed)).map
    (fun r =>
      { agentId := r.agentId, reason := (canSend s input.senderId r.agentId).reason })

/-- `AgentMailCore.sendMessage`: with `enforceContactPolicy` the recipients are
filtered through `canSend`; a fully blocked send raises the aggregate
policy error, otherwise the message goes to the allowed subset only. -/
def coreSendMessage (s : DB) (input : SendMessageInput) (t : Nat) (freshThread : String) :
    Except String (MessageRow × DB) :=
  if input.enforceContactPolicy.getD false then
    if (allowedRecipients s input).isEmpty then
      .error ("All recipients blocked by contact policy: " ++
        String.intercalate ", "
          ((blockedRecipientsOf s input).map (fun b => toString b.agentId ++ ": " ++ b.reason)))
    else
      msgSendMessage s { input with recipients := allowedRecipients s input } t freshThread
  else
    msgSendMessage s input t freshThread

/-- `AgentMailCore.sendMessageWithPolicyCheck`: same filtering as
`coreSendMessage`, but a fully blocked send is reported as a structured
result instead of an error. -/
def sendMessageWithPolicyCheck (s : DB) (input : SendMessageInput) (t : Nat)
    (freshThread : String) : Except String (SendMessageResult × DB) :=
  if (allowedRecipients s input).isEmpty then
    .ok ({ message := none, blockedRecipients := blockedRecipientsOf s input,
           sent := false }, s)
  else
    match msgSendMessage s { input with recipients := allowedRecipients s input } t freshThread with
    | .error e => .error e
    | .ok (m, s2) =>
      .ok ({ message := some m, blockedRecipients := blockedRecipientsOf s input,
             sent := true }, s2)

/-! ## Specification-side definitions

These re-state operations in the words of the specification; the claim
theorems compare them with the definitions translated from the source. -/

/-- The link between `a` and `b` (looked up in both directions) exists and has
the given status. -/
def linkHasStatus (s : DB) (a b : Nat) (st : String) : Bool :=
  match getLinkBetween s a b with
  | some l => l.status == st
  | none => false

/-- The sender exists and has the same program tag as the given recipient. -/
def senderSameProgram (s : DB) (senderId : Nat) (recipient : AgentRow) : Bool :=
  match findAgent s senderId with
  | some sender => sender.program == recipient.program
  | none => false

/-- The admission decision as the specification words it: eight
priority-ordered rules, first match winning — nonexistent recipient, blocked
link, `block_all`, `open`, approved link, `auto` (same program / pending /
contacts_only), `contacts_only` (pending / contacts_only), fallback. -/
def canSendSpec (s : DB) (senderId recipientId : Nat) : CanSendResult :=
  match findAgent s recipientId with
  | none => ⟨false, "blocked"⟩
  | some recipient =>
    if linkHasStatus s senderId recipientId "blocked" then ⟨false, "blocked"⟩
    else if recipient.contactPolicy == "block_all" then ⟨false, "block_all"⟩
    else if recipient.contactPolicy == "open" then ⟨true, "open"⟩
    else if linkHasStatus s senderId recipientId "approved" then ⟨true, "approved_contact"⟩
    else if recipient.contactPolicy == "auto" then
      if senderSameProgram s senderId recipient then ⟨true, "auto_approved"⟩
      else if linkHasStatus s senderId recipientId "pending" then ⟨false, "pending"⟩
      else ⟨false, "contacts_only"⟩
    else if recipient.contactPolicy == "contacts_only" then
      if linkHasStatus s senderId recipientId "pending" then ⟨false, "pending"⟩
      else ⟨false, "contacts_only"⟩
    else ⟨false, "blocked"⟩

/-- A row relates the unordered pair `{a, b}` in one of the two directions. -/
def pairLink (l : AgentLinkRow) (a b : Nat) : Prop :=
  (l.requesterId = a ∧ l.responderId = b) ∨ (l.requesterId = b ∧ l.responderId = a)

/-! ## Concrete sample states -/

/-- A sample agent row with the fields the engines consult. -/
def mkAgent (id projectId : Nat) (program policy : String) : AgentRow :=
  { id := id, projectId := projectId, name := "Agent" ++ toString id,
    program := program, model := "m", task := none, inceptionTs := 0,
    lastActiveTs := 0, attachmentsPolicy := "auto", contactPolicy := policy }

/-- Two open-policy agents with a blocked link between them. -/
def dbC1 : DB :=
  { agents := [mkAgent 1 1 "p" "open", mkAgent 2 1 "p" "open"],
    links := [{ id := 1, requesterId := 1, responderId := 2, status := "blocked",
                createdTs := 0, updatedTs := 0 }],
    reservations := [], messages := [], recipients := [],
    nextLinkId := 2, nextReservationId := 1, nextMessageId := 1 }

/-- Two `contacts_only` agents of different programs, no links. -/
def dbC4 : DB :=
  { agents := [mkAgent 1 1 "p" "contacts_only", mkAgent 2 1 "q" "contacts_only"],
    links := [], reservations := [], messages := [], recipients := [],
    nextLinkId := 1, nextReservationId := 1, nextMessageId := 1 }

/-- An approved link between agents 1 and 2. -/
def linkC5 : AgentLinkRow :=
  { id := 1, requesterId := 1, responderId := 2, status := "approved",
    createdTs := 0, updatedTs := 0 }

/-- Two agents already linked by `linkC5`. -/
def dbC5 : DB :=
  { agents := [mkAgent 1 1 "p" "open", mkAgent 2 1 "p" "open"],
    links := [linkC5], reservations := [], messages := [], recipients := [],
    nextLinkId := 2, nextReservationId := 1, nextMessageId := 1 }

/-- An unreleased reservation expiring at time 100. -/
def resC6 : FileReservationRow :=
  { id := 1, projectId := 1, agentId := 1, pathPattern := "src/*.ts",
    exclusive := true, reason := none, createdTs := 0, expiresTs := 100,
    releasedTs := none }

/-- One agent holding the single unreleased reservation `resC6`. -/
def dbC6 : DB :=
  { agents := [mkAgent 1 1 "p" "open"], links := [], reservations := [resC6],
    messages := [], recipients := [],
    nextLinkId := 1, nextReservationId := 2, nextMessageId := 1 }

/-- An active exclusive reservation on `src/*.ts` held by agent 2. -/
def resC3 : FileReservationRow :=
  { id := 1, projectId := 1, agentId := 2, pathPattern := "src/*.ts",
    exclusive := true, reason := none, createdTs := 0, expiresTs := 100,
    releasedTs := none }

/-- Two agents in one project; agent 2 holds the active exclusive
reservation `resC3`. -/
def dbC3 : DB :=
  { agents := [mkAgent 1 1 "p" "open", mkAgent 2 1 "p" "open"],
    links := [], reservations := [resC3], messages := [], recipients := [],
    nextLinkId := 1, nextReservationId := 2, nextMessageId := 1 }

/-- Three agents: an open sender, an open recipient, and a `block_all`
recipient. -/
def dbC7 : DB :=
  { agents := [mkAgent 1 1 "p" "open", mkAgent 2 1 "p" "open",
               mkAgent 3 1 "p" "block_all"],
    links := [], reservations := [], messages := [], recipients := [],
    nextLinkId := 1, nextReservationId := 1, nextMessageId := 1 }

/-- A policy-enforced send addressed only to the `block_all` agent. -/
def inC7blocked : SendMessageInput :=
  { senderId := 1, recipients := [{ agentId := 3, kind := "to" }],
    subject := "s", body := "b", threadId := none, importance := none,
    requiresAck := none, ackTtlSeconds := none, attachments := none,
    enforceContactPolicy := some true }

/-- A send addressed to one open and one `block_all` recipient. -/
def inC7mixed : SendMessageInput :=
  { senderId := 1,
    recipients := [{ agentId := 2, kind := "to" }, { agentId := 3, kind := "cc" }],
    subject := "s", body := "b", threadId := none, importance := none,
    requiresAck := none, ackTtlSeconds := none, attachments := none,
    enforceContactPolicy := none }

/-- A message from agent 1 in thread `"th"`. -/
def msgC9 : MessageRow :=
  { id := 1, projectId := 1, senderId := 1, threadId := "th", subject := "hello",
    body := "x", importance := "normal", requiresAck := false,
    ackTtlSeconds := none, attachments := [], createdTs := 0 }

/-- Three agents and the message `msgC9` delivered to agent 2 (`to`) and
agent 3 (`cc`). -/
def dbC9 : DB :=
  { agents := [mkAgent 1 1 "p" "open", mkAgent 2 1 "p" "open",
               mkAgent 3 1 "p" "open"],
    links := [], reservations := [], messages := [msgC9],
    recipients := [{ messageId := 1, agentId := 2, kind := "to", readTs := none, ackTs := none },
                   { messageId := 1, agentId := 3, kind := "cc", readTs := none, ackTs := none }],
    nextLinkId := 1, nextReservationId := 1, nextMessageId := 2 }

/-- A recipient record that has already been read at time 5. -/
def recC10 : MessageRecipientRow :=
  { messageId := 1, agentId := 2, kind := "to", readTs := some 5, ackTs := none }

/-- A state holding the single already-read recipient record `recC10`. -/
def dbC10 : DB :=
  { agents := [], links := [], reservations := [], messages := [],
    recipients := [recC10],
    nextLinkId := 1, nextReservationId := 1, nextMessageId := 2 }

/-! ## Supporting lemmas -/

theorem getLinkBetween_none_symm (s : DB) (a b : Nat)
    (h : getLinkBetween s a b = none) : getLinkBetween s b a = none := by
  unfold getLinkBetween at h ⊢
  rcases h1 : s.links.find? (fun l => l.requesterId == a && l.responderId == b) with _ | l
  · rw [h1] at h
    simp only at h
    rw [h]
    simp [h1]
  · rw [h1] at h; exact absurd h (by simp)

theorem getLinkBetween_none_find? (s : DB) (a b : Nat) (h : getLinkBetween s a b = none) :
    s.links.find? (fun l => l.requesterId == a && l.responderId == b) = none ∧
    s.links.find? (fun l => l.requesterId == b && l.responderId == a) = none := by
  unfold getLinkBetween at h
  rcases h1 : s.links.find? (fun l => l.requesterId == a && l.responderId == b) with _ | l
  · rw [h1] at h; simp only at h; exact ⟨h1, h⟩
  · rw [h1] at h; exact absurd h (by simp)

theorem getLinkBetween_mem_pair (s : DB) (a b : Nat) (row : AgentLinkRow)
    (h : getLinkBetween s a b = some row) : row ∈ s.links ∧ pairLink row a b := by
  unfold getLinkBetween at h
  rcases h1 : s.links.find? (fun l => l.requesterId == a && l.responderId == b) with _ | l
  · rw [h1] at h; simp only at h
    refine ⟨List.mem_of_find?_eq_some h, Or.inr ?_⟩
    have hp := List.find?_some h
    simpa [Bool.and_eq_true, beq_iff_eq] using hp
  · rw [h1] at h; simp only [Option.some.injEq] at h
    subst h
    refine ⟨List.mem_of_find?_eq_some h1, Or.inl ?_⟩
    have hp := List.find?_some h1
    simpa [Bool.and_eq_true, beq_iff_eq] using hp

theorem getLinkBetween_symm_some (s : DB) (a b : Nat) (row : AgentLinkRow)
    (huniq : ∀ l1 ∈ s.links, ∀ l2 ∈ s.links, pairLink l1 a b → pairLink l2 a b → l1 = l2)
    (h : getLinkBetween s a b = some row) : getLinkBetween s b a = some row := by
  obtain ⟨hmem, hpair⟩ := getLinkBetween_mem_pair s a b row h
  unfold getLinkBetween
  rcases h2 : s.links.find? (fun l => l.requesterId == b && l.responderId == a) with _ | l
  · simp only [h2]
    unfold getLinkBetween at h
    rcases h1 : s.links.find? (fun l => l.requesterId == a && l.responderId == b) with _ | l1
    · rw [h1] at h; simp only at h; rw [h] at h2; cases h2
    · rw [h1] at h; simp only [Option.some.injEq] at h; subst h; exact h1
  · simp only [h2]
    have hl := List.find?_some h2
    have hlmem := List.mem_of_find?_eq_some h2
    have hl' : l.requesterId = b ∧ l.responderId = a := by
      simpa [Bool.and_eq_true, beq_iff_eq] using hl
    have : l = row := huniq l hlmem row hmem (Or.inr hl') hpair
    rw [this]

/-! ## Claim theorems -/

/-- C1: `canSend` implements the specification's priority-ordered admission
rules, first match winning: nonexistent recipient → blocked; blocked link →
blocked; `block_all` → block_all; `open` → open; approved link →
approved_contact; `auto` → auto_approved / pending / contacts_only;
`contacts_only` → pending / contacts_only; fallback → blocked.  In
particular, under an open recipient policy the send is allowed exactly when
no blocked link exists between the pair. -/
theorem canSend_matches_priority_rules (s : DB) (senderId recipientId : Nat) :
    canSend s senderId recipientId = canSendSpec s senderId recipientId ∧
    (∀ recipient, findAgent s recipientId = some recipient →
      recipient.contactPolicy = "open" →
      (canSend s senderId recipientId).allowed =
        !linkHasStatus s senderId recipientId "blocked") := by
  constructor
  · rcases hr : findAgent s recipientId with _ | recipient
    · simp [canSend, canSendSpec, hr]
    · rcases hl : getLinkBetween s senderId recipientId with _ | l <;>
        rcases hs : findAgent s senderId with _ | sender <;>
        simp [canSend, canSendSpec, linkHasStatus, senderSameProgram, hr, hl, hs]
  · intro recipient hrec hpol
    rcases hl : getLinkBetween s senderId recipientId with _ | l
    · simp [canSend, linkHasStatus, hrec, hpol, hl]
    · by_cases hb : l.status = "blocked" <;>
        simp [canSend, linkHasStatus, hrec, hpol, hl, hb]

/-- Witness for C1 at a concrete state: open recipient with a blocked link. -/
theorem canSend_matches_priority_rules_witness :
    (canSend dbC1 1 2).allowed = !linkHasStatus dbC1 1 2 "blocked" :=
  (canSend_matches_priority_rules dbC1 1 2).2 (mkAgent 2 1 "p" "open") rfl rfl

/-- C4: for a fresh pair (no link in either direction, both agents existing)
the created link's initial status is a function of the responder's contact
policy alone, plus program equality for `auto`. -/
theorem requestLink_initial_status (s : DB) (requesterId responderId t : Nat)
    (responder requester : AgentRow)
    (hnl : getLinkBetween s requesterId responderId = none)
    (hresp : findAgent s responderId = some responder)
    (hreq : findAgent s requesterId = some requester) :
    ∃ row s2, requestLink s requesterId responderId t = .ok (row, s2) ∧
      row.requesterId = requesterId ∧ row.responderId = responderId ∧
      (responder.contactPolicy = "open" → row.status = "approved") ∧
      (responder.contactPolicy = "auto" → requester.program = responder.program →
        row.status = "approved") ∧
      (responder.contactPolicy = "auto" → requester.program ≠ responder.program →
        row.status = "pending") ∧
      (responder.contactPolicy = "contacts_only" → row.status = "pending") ∧
      (responder.contactPolicy = "block_all" → row.status = "blocked") := by
  have hrev := getLinkBetween_none_symm s _ _ hnl
  simp only [requestLink, hnl, hrev, hresp, hreq]
  refine ⟨_, _, rfl, rfl, rfl, ?_, ?_, ?_, ?_, ?_⟩
  · intro h1; simp [initialLinkStatus, h1]
  · intro h1 h2; simp [initialLinkStatus, h1, h2]
  · intro h1 h2; simp [initialLinkStatus, h1, h2, beq_iff_eq]
  · intro h1; simp [initialLinkStatus, h1]
  · intro h1; simp [initialLinkStatus, h1]

/-- Witness for C4: a fresh `contacts_only` pair yields a pending link. -/
theorem requestLink_initial_status_witness :
    ∃ row s2, requestLink dbC4 1 2 5 = Except.ok (row, s2) ∧ row.status = "pending" := by
  obtain ⟨row, s2, hok, _, _, _, _, _, hco, _⟩ :=
    requestLink_initial_status dbC4 1 2 5
      (mkAgent 2 1 "q" "contacts_only") (mkAgent 1 1 "p" "contacts_only") rfl rfl rfl
  exact ⟨row, s2, hok, hco rfl⟩

/-- C5: `requestLink` is idempotent across both directions of a pair — an
existing link is returned unchanged with no new row, a second call in the
same direction returns the same link, and a call in the reverse direction
also returns that same link (states whose pair has at most one link row,
the intended invariant). -/
theorem requestLink_idempotent (s : DB) (a b t t2 : Nat)
    (huniq : ∀ l1 ∈ s.links, ∀ l2 ∈ s.links, pairLink l1 a b → pairLink l2 a b → l1 = l2) :
    (∀ row, getLinkBetween s a b = some row → requestLink s a b t = .ok (row, s)) ∧
    (∀ row s2, requestLink s a b t = .ok (row, s2) →
      requestLink s2 a b t2 = .ok (row, s2) ∧ requestLink s2 b a t2 = .ok (row, s2)) := by
  constructor
  · intro row h
    simp only [requestLink, h]
  · intro row s2 h
    rcases hab : getLinkBetween s a b with _ | l
    · -- the first call created the link
      have hba := getLinkBetween_none_symm s a b hab
      obtain ⟨hf1, hf2⟩ := getLinkBetween_none_find? s a b hab
      rcases hresp : findAgent s b with _ | responder
      · rw [requestLink, hab, hba, hresp] at h; cases h
      · rcases hreqq : findAgent s a with _ | requester
        · rw [requestLink, hab, hba, hresp, hreqq] at h; cases h
        · rw [requestLink, hab, hba, hresp, hreqq] at h
          simp only [Except.ok.injEq, Prod.mk.injEq] at h
          obtain ⟨hrow, hs2⟩ := h
          have hrowa : row.requesterId = a := by rw [← hrow]
          have hrowb : row.responderId = b := by rw [← hrow]
          have hlinks : s2.links = s.links ++ [row] := by rw [← hs2, ← hrow]
          have hgab : getLinkBetween s2 a b = some row := by
            unfold getLinkBetween
            rw [hlinks, List.find?_append, hf1]
            simp [List.find?, hrowa, hrowb]
          have hgba : getLinkBetween s2 b a = some row := by
            unfold getLinkBetween
            rw [hlinks, List.find?_append, List.find?_append, hf1, hf2]
            by_cases hEq : a = b
            · subst hEq
              simp [List.find?, hrowa, hrowb]
            · have hne : (a == b) = false := by
                simpa using hEq
              simp [List.find?, hrowa, hrowb, hne]
          exact ⟨by simp only [requestLink, hgab], by simp only [requestLink, hgba]⟩
    · -- the first call returned the existing link
      rw [requestLink, hab] at h
      simp only [Except.ok.injEq, Prod.mk.injEq] at h
      obtain ⟨rfl, rfl⟩ := h
      have hba : getLinkBetween s b a = some l :=
        getLinkBetween_symm_some s a b l huniq hab
      exact ⟨by simp only [requestLink, hab], by simp only [requestLink, hba]⟩

/-- Witness for C5: both follow-up calls on an already linked pair return the
existing approved link with the state untouched. -/
theorem requestLink_idempotent_witness :
    requestLink dbC5 1 2 7 = Except.ok (linkC5, dbC5) ∧
    requestLink dbC5 2 1 7 = Except.ok (linkC5, dbC5) := by
  have h := requestLink_idempotent dbC5 1 2 5 7 (by
    intro l1 h1 l2 h2 _ _
    simp only [dbC5, List.mem_singleton] at h1 h2
    rw [h1, h2])
  exact (h.2 linkC5 dbC5 (h.1 linkC5 rfl))

/-- C6 counterexample: renewing an unreleased reservation does not always
strictly increase `expiresTs` — at time 50 with `ttlSeconds = 10` the
reservation expiring at 100 is rewritten to 60, a strict decrease, while the
renewal still reports one affected row. -/
theorem renewReservations_can_decrease_expiry :
    (renewReservations dbC6 [1] 10 50).2.reservations.map (fun r => r.expiresTs) = [60] ∧
    dbC6.reservations.map (fun r => r.expiresTs) = [100] ∧
    (renewReservations dbC6 [1] 10 50).1 = 1 ∧ 60 < 100 := by
  decide

/-- C6 (amended): `renewReservations [id] ttl` at time `t` rewrites
`expiresTs` to `t + ttl` exactly for the unreleased rows with that id — a
strict increase precisely when `t + ttl` exceeds the current `expiresTs` —
leaves released rows entirely unchanged, and returns 0 when every row with
the id is released. -/
theorem renewReservations_renews_unreleased (s : DB) (id ttl t : Nat) :
    (renewReservations s [id] ttl t).2.reservations =
      s.reservations.map (renewRow id (t + ttl)) ∧
    (∀ r : FileReservationRow, r.id = id → r.releasedTs = none →
      (renewRow id (t + ttl) r).expiresTs = t + ttl ∧
      (r.expiresTs < t + ttl → r.expiresTs < (renewRow id (t + ttl) r).expiresTs)) ∧
    (∀ r : FileReservationRow, r.releasedTs ≠ none → renewRow id (t + ttl) r = r) ∧
    ((∀ r ∈ s.reservations, r.id = id → r.releasedTs ≠ none) →
      (renewReservations s [id] ttl t).1 = 0) := by
  refine ⟨?_, ?_, ?_, ?_⟩
  · simp [renewReservations, renewOne]
  · intro r h1 h2
    constructor
    · simp [renewRow, h1, h2]
    · intro hlt
      simpa [renewRow, h1, h2] using hlt
  · intro r h
    rcases hrel : r.releasedTs with _ | v
    · exact absurd hrel h
    · simp [renewRow, hrel]
  · intro hall
    have hnone : ∀ r ∈ s.reservations, ¬(r.id == id && r.releasedTs == none) = true := by
      intro r hr hcon
      simp only [Bool.and_eq_true, beq_iff_eq] at hcon
      exact hall r hr hcon.1 hcon.2
    simp [renewReservations, renewOne, List.countP_eq_zero.mpr hnone]

/-- Witness for C6 (amended) at a concrete state: renewing after the original
expiry strictly extends the lease. -/
theorem renewReservations_renews_unreleased_witness :
    (renewReservations dbC6 [1] 10 200).2.reservations =
      dbC6.reservations.map (renewRow 1 210) ∧
    (renewRow 1 210 resC6).expiresTs = 210 ∧
    (resC6.expiresTs < 210 → resC6.expiresTs < (renewRow 1 210 resC6).expiresTs) := by
  have h := renewReservations_renews_unreleased dbC6 1 10 200
  exact ⟨h.1, (h.2.1 resC6 rfl rfl).1, (h.2.1 resC6 rfl rfl).2⟩

/-- C10: `markRead` touches only recipient rows whose `readTs` is still null —
a record already read stays entirely unchanged (the first read timestamp is
never overwritten), `ackTs` is never modified, and the messages table is
untouched. -/
theorem markRead_updates_only_unread (s : DB) (mid aid t : Nat) :
    (markRead s mid aid t).messages = s.messages ∧
    (markRead s mid aid t).recipients.length = s.recipients.length ∧
    (∀ i (h1 : i < s.recipients.length) (h2 : i < (markRead s mid aid t).recipients.length),
      ((markRead s mid aid t).recipients[i]).ackTs = (s.recipients[i]).ackTs ∧
      ((s.recipients[i]).readTs ≠ none →
        (markRead s mid aid t).recipients[i] = s.recipients[i])) := by
  refine ⟨rfl, by simp [markRead], ?_⟩
  intro i h1 h2
  constructor
  · simp only [markRead, List.getElem_map]
    split <;> rfl
  · intro hread
    rcases hrt : (s.recipients[i]).readTs with _ | v
    · exact absurd hrt hread
    · simp only [markRead, List.getElem_map]
      simp [hrt]

/-- Witness for C10: marking an already-read record again leaves the recipient
table identical. -/
theorem markRead_updates_only_unread_witness :
    (markRead dbC10 1 2 9).recipients = dbC10.recipients := by
  have h := markRead_updates_only_unread dbC10 1 2 9
  apply List.ext_getElem h.2.1
  intro i h1 h2
  apply (h.2.2 i h2 h1).2
  have hi : i = 0 := by
    have hlen : dbC10.recipients.length = 1 := by decide
    omega
  subst hi
  simp [dbC10, recC10]

theorem mkReservations_map_pathPattern (pid aid : Nat) (ex : Bool) (re : Option String)
    (ct et : Nat) : ∀ (n : Nat) (ps : List String),
    (mkReservations pid aid ex re ct et n ps).map (fun r => r.pathPattern) = ps
  | _, [] => rfl
  | n, p :: ps => by
    simp [mkReservations, mkReservations_map_pathPattern pid aid ex re ct et (n + 1) ps]

theorem mkReservations_mem_fields (pid aid : Nat) (ex : Bool) (re : Option String)
    (ct et : Nat) : ∀ (n : Nat) (ps : List String) (r : FileReservationRow),
    r ∈ mkReservations pid aid ex re ct et n ps →
    r.createdTs = ct ∧ r.expiresTs = et ∧ r.agentId = aid ∧ r.projectId = pid ∧
      r.exclusive = ex ∧ r.releasedTs = none
  | _, [], r => by intro h; cases h
  | n, p :: ps, r => by
    intro h
    rcases List.mem_cons.mp h with h | h
    · subst h; exact ⟨rfl, rfl, rfl, rfl, rfl, rfl⟩
    · exact mkReservations_mem_fields pid aid ex re ct et (n + 1) ps r h

/-- C3: an exclusive `reserveFiles` whose patterns conflict with another
agent's active exclusive reservation fails as a whole with one aggregate
error naming, per conflicting pattern, the blocking agent and its reserved
pattern, and no row is created (the error carries no successor state); with
no conflicts, or with `exclusive = false`, exactly one row per requested
pattern is appended, all sharing one `createdTs` and one
`expiresTs = now + ttlSeconds`. -/
theorem reserveFiles_conflict_atomicity (s : DB) (agentId : Nat) (patterns : List String)
    (reasonOpt : Option String) (ttlOpt : Option Nat) (t : Nat)
    (agent : AgentRow) (hag : findAgent s agentId = some agent) :
    (checkConflicts s agent.projectId agentId patterns t ≠ [] →
      reserveFiles s agentId patterns (some true) reasonOpt ttlOpt t =
        .error ("File reservation conflicts: " ++
          String.intercalate "; "
            ((checkConflicts s agent.projectId agentId patterns t).map conflictDetail))) ∧
    (∀ exclusive : Bool,
      (checkConflicts s agent.projectId agentId patterns t = [] ∨ exclusive = false) →
      ∃ rows s2,
        reserveFiles s agentId patterns (some exclusive) reasonOpt ttlOpt t = .ok (rows, s2) ∧
        rows.map (fun r => r.pathPattern) = patterns ∧
        (∀ r ∈ rows, r.createdTs = t ∧ r.expiresTs = t + ttlOpt.getD 1800 ∧
          r.agentId = agentId ∧ r.projectId = agent.projectId ∧
          r.exclusive = exclusive ∧ r.releasedTs = none) ∧
        s2 = { s with reservations := s.reservations ++ rows,
                      nextReservationId := s.nextReservationId + patterns.length }) := by
  constructor
  · intro hc
    rcases hcheck : checkConflicts s agent.projectId agentId patterns t with _ | ⟨c, cs⟩
    · exact absurd hcheck hc
    · simp [reserveFiles, hag, hcheck]
  · intro exclusive hdisj
    refine ⟨mkReservations agent.projectId agentId exclusive reasonOpt t (t + ttlOpt.getD 1800) s.nextReservationId patterns, { s with reservations := s.reservations ++ mkReservations agent.projectId agentId exclusive reasonOpt t (t + ttlOpt.getD 1800) s.nextReservationId patterns, nextReservationId := s.nextReservationId + patterns.length }, ?_, mkReservations_map_pathPattern _ _ _ _ _ _ _ _, fun r hr => mkReservations_mem_fields _ _ _ _ _ _ _ _ r hr, rfl⟩
    rcases hdisj with hempty | hfalse
    · simp [reserveFiles, hag, hempty]
    · subst hfalse
      simp [reserveFiles, hag]

/-- Witness for C3: reserving `src/*.ts` exclusively against an existing
active exclusive reservation of the same pattern fails with the aggregate
error, while the same non-exclusive request succeeds. -/
theorem reserveFiles_conflict_atomicity_witness :
    (reserveFiles dbC3 1 ["src/*.ts"] (some true) none none 10 =
      .error ("File reservation conflicts: " ++
        String.intercalate "; "
          ((checkConflicts dbC3 1 1 ["src/*.ts"] 10).map conflictDetail))) ∧
    (∃ rows s2, reserveFiles dbC3 1 ["src/*.ts"] (some false) none none 10 = .ok (rows, s2)) := by
  have h := reserveFiles_conflict_atomicity dbC3 1 ["src/*.ts"] none none 10
    (mkAgent 1 1 "p" "open") rfl
  constructor
  · exact h.1 (by
      simp [checkConflicts, getActiveReservations, dbC3, resC3, mkAgent, findAgent,
        patternsOverlap, globMatches, compileGlob, tokensMatch, slashScan,
        classContains, getBasePath, getDirectory, getFileName, hasStarStar,
        strStartsWith, containsChar, splitSlash, joinSlash, segIsStatic,
        lastSlashPos, List.isPrefixOf, List.contains])
  · obtain ⟨rows, s2, hok, _, _, _⟩ := h.2 false (Or.inr rfl)
    exact ⟨rows, s2, hok⟩

/-- C2: the overlap heuristic is not conservative.  The patterns `a/?x.ts`
and `a/x?.ts` both match the concrete path `a/xx.ts`, yet `patternsOverlap`
reports no overlap in either argument order: neither pattern glob-matches the
other taken as a literal path, and the same-directory check looks for the
character `*` only, missing the `?` wildcard — contradicting the function's
own documentation that it "will never return false for patterns that do"
overlap. -/
theorem patternsOverlap_misses_real_overlap :
    globMatches "a/?x.ts" "a/xx.ts" = true ∧
    globMatches "a/x?.ts" "a/xx.ts" = true ∧
    patternsOverlap "a/?x.ts" "a/x?.ts" = false ∧
    patternsOverlap "a/x?.ts" "a/?x.ts" = false := by
  refine ⟨?_, ?_, ?_, ?_⟩ <;>
    simp [patternsOverlap, globMatches, compileGlob, tokensMatch, slashScan,
      classContains, getBasePath, getDirectory, getFileName, hasStarStar,
      strStartsWith, containsChar, splitSlash, joinSlash, segIsStatic,
      lastSlashPos, List.isPrefixOf, List.contains]


theorem canSend_allowed_recipient_exists (s : DB) (a b : Nat)
    (h : (canSend s a b).allowed = true) : (findAgent s b).isNone = false := by
  rcases hf : findAgent s b with _ | ag
  · rw [canSend, hf] at h; cases h
  · rfl

/-- C7: when every recipient is denied by `canSend`, enforcement-enabled
`sendMessage` fails with an error listing each dropped recipient with its
reason (and persists nothing), while `sendMessageWithPolicyCheck` never
throws for the fully blocked case and returns `message = none`,
`sent = false` with the unchanged state; when at least one recipient is
allowed, `sendMessageWithPolicyCheck` returns the persisted message with
`sent = true` and recipient rows created only for the allowed subset. -/
theorem sendMessage_policy_filtering (s : DB) (input : SendMessageInput) (t : Nat)
    (u : String) :
    ((∀ r ∈ input.recipients, (canSend s input.senderId r.agentId).allowed = false) →
      blockedRecipientsOf s input = input.recipients.map
        (fun r => { agentId := r.agentId,
                    reason := (canSend s input.senderId r.agentId).reason }) ∧
      (input.enforceContactPolicy = some true →
        coreSendMessage s input t u = .error ("All recipients blocked by contact policy: " ++
          String.intercalate ", " ((blockedRecipientsOf s input).map
            (fun b => toString b.agentId ++ ": " ++ b.reason)))) ∧
      sendMessageWithPolicyCheck s input t u =
        .ok ({ message := none, blockedRecipients := blockedRecipientsOf s input,
               sent := false }, s)) ∧
    (∀ sender, findAgent s input.senderId = some sender →
      (∃ r ∈ input.recipients, (canSend s input.senderId r.agentId).allowed = true) →
      ∃ m s2, sendMessageWithPolicyCheck s input t u =
          .ok ({ message := some m, blockedRecipients := blockedRecipientsOf s input,
                 sent := true }, s2) ∧
        s2.messages = s.messages ++ [m] ∧
        s2.recipients = s.recipients ++ (allowedRecipients s input).map
          (fun r => { messageId := m.id, agentId := r.agentId, kind := r.kind,
                      readTs := none, ackTs := none })) := by
  constructor
  · intro hall
    have hempty : allowedRecipients s input = [] := by
      rw [allowedRecipients, List.filter_eq_nil_iff]
      intro r hr
      simp [hall r hr]
    have hblocked : blockedRecipientsOf s input = input.recipients.map
        (fun r => { agentId := r.agentId,
                    reason := (canSend s input.senderId r.agentId).reason }) := by
      rw [blockedRecipientsOf]
      congr 1
      rw [List.filter_eq_self]
      intro r hr
      simp [hall r hr]
    refine ⟨hblocked, ?_, ?_⟩
    · intro henf
      rw [coreSendMessage, henf]
      simp [hempty]
    · rw [sendMessageWithPolicyCheck]
      simp [hempty]
  · intro sender hsender hex
    have hne : (allowedRecipients s input).isEmpty = false := by
      obtain ⟨r, hr, hok⟩ := hex
      have : r ∈ allowedRecipients s input := by
        rw [allowedRecipients, List.mem_filter]
        exact ⟨hr, hok⟩
      rcases hal : allowedRecipients s input with _ | ⟨x, xs⟩
      · rw [hal] at this; cases this
      · rfl
    have hvalid : (allowedRecipients s input).find?
        (fun r => (findAgent s r.agentId).isNone) = none := by
      rw [List.find?_eq_none]
      intro r hr
      rw [allowedRecipients, List.mem_filter] at hr
      simp [canSend_allowed_recipient_exists s input.senderId r.agentId hr.2]
    have hmsg : msgSendMessage s { input with recipients := allowedRecipients s input } t u = .ok ({ id := s.nextMessageId, projectId := sender.projectId, senderId := input.senderId, threadId := input.threadId.getD u, subject := input.subject, body := input.body, importance := input.importance.getD "normal", requiresAck := input.requiresAck.getD false, ackTtlSeconds := input.ackTtlSeconds, attachments := input.attachments.getD [], createdTs := t }, { s with messages := s.messages ++ [{ id := s.nextMessageId, projectId := sender.projectId, senderId := input.senderId, threadId := input.threadId.getD u, subject := input.subject, body := input.body, importance := input.importance.getD "normal", requiresAck := input.requiresAck.getD false, ackTtlSeconds := input.ackTtlSeconds, attachments := input.attachments.getD [], createdTs := t }], recipients := s.recipients ++ (allowedRecipients s input).map (fun r => { messageId := s.nextMessageId, agentId := r.agentId, kind := r.kind, readTs := none, ackTs := none }), nextMessageId := s.nextMessageId + 1 }) := by
      simp only [msgSendMessage, hsender, hvalid]
    refine ⟨{ id := s.nextMessageId, projectId := sender.projectId, senderId := input.senderId, threadId := input.threadId.getD u, subject := input.subject, body := input.body, importance := input.importance.getD "normal", requiresAck := input.requiresAck.getD false, ackTtlSeconds := input.ackTtlSeconds, attachments := input.attachments.getD [], createdTs := t }, { s with messages := s.messages ++ [{ id := s.nextMessageId, projectId := sender.projectId, senderId := input.senderId, threadId := input.threadId.getD u, subject := input.subject, body := input.body, importance := input.importance.getD "normal", requiresAck := input.requiresAck.getD false, ackTtlSeconds := input.ackTtlSeconds, attachments := input.attachments.getD [], createdTs := t }], recipients := s.recipients ++ (allowedRecipients s input).map (fun r => { messageId := s.nextMessageId, agentId := r.agentId, kind := r.kind, readTs := none, ackTs := none }), nextMessageId := s.nextMessageId + 1 }, ?_, rfl, rfl⟩
    simp only [sendMessageWithPolicyCheck, hne, hmsg]
    simp

/-- Witness for C7: a fully blocked send returns a structured failure, and a
mixed send succeeds. -/
theorem sendMessage_policy_filtering_witness :
    (coreSendMessage dbC7 inC7blocked 3 "u" =
      .error ("All recipients blocked by contact policy: " ++
        String.intercalate ", " ((blockedRecipientsOf dbC7 inC7blocked).map
          (fun b => toString b.agentId ++ ": " ++ b.reason)))) ∧
    (sendMessageWithPolicyCheck dbC7 inC7blocked 3 "u" =
      .ok ({ message := none, blockedRecipients := blockedRecipientsOf dbC7 inC7blocked,
             sent := false }, dbC7)) ∧
    (∃ m s2, sendMessageWithPolicyCheck dbC7 inC7mixed 3 "u" =
      .ok ({ message := some m, blockedRecipients := blockedRecipientsOf dbC7 inC7mixed,
             sent := true }, s2)) := by
  refine ⟨?_, ?_, ?_⟩
  · exact ((sendMessage_policy_filtering dbC7 inC7blocked 3 "u").1 (by decide)).2.1 rfl
  · exact ((sendMessage_policy_filtering dbC7 inC7blocked 3 "u").1 (by decide)).2.2
  · obtain ⟨m, s2, hok, _, _⟩ := (sendMessage_policy_filtering dbC7 inC7mixed 3 "u").2
      (mkAgent 1 1 "p" "open") rfl ⟨{ agentId := 2, kind := "to" }, by decide, by decide⟩
    exact ⟨m, s2, hok⟩


theorem isSome_not_isNone {α : Type} {o : Option α} (h : o.isSome = true) :
    ¬ o.isNone = true := by
  rcases o with _ | v
  · cases h
  · intro hc; cases hc

/-- C9: `replyMessage` creates a message whose recipient rows are the
original sender with kind `to` (only when different from the new sender)
followed by the original message's recipients excluding the new sender with
their delivery kinds preserved, whose subject is `"Re: "` prepended to the
original subject with no deduplication of an existing prefix, and whose
`threadId` and `importance` equal the original's. -/
theorem replyMessage_builds_reply (s : DB) (origId senderId : Nat) (body : String)
    (att : Option (List Attachment)) (t : Nat) (u : String)
    (original : MessageRow) (horig : getMessage s origId = some original)
    (sender : AgentRow) (hsender : findAgent s senderId = some sender)
    (horigsender : (findAgent s original.senderId).isSome = true)
    (hrecips : ∀ rr ∈ getRecipients s origId, (findAgent s rr.agentId).isSome = true) :
    ∃ m s2, replyMessage s origId senderId body att t u = .ok (m, s2) ∧
      m.subject = "Re: " ++ original.subject ∧
      m.threadId = original.threadId ∧
      m.importance = original.importance ∧
      s2.messages = s.messages ++ [m] ∧
      s2.recipients = s.recipients ++
        ((if original.senderId != senderId then
            [{ messageId := m.id, agentId := original.senderId, kind := "to",
               readTs := none, ackTs := none }]
          else []) ++
         ((getRecipients s origId).filter (fun r => r.agentId != senderId)).map
           (fun r => { messageId := m.id, agentId := r.agentId, kind := r.kind,
                       readTs := none, ackTs := none })) := by
  have hvalid : ((if original.senderId != senderId then
        [({ agentId := original.senderId, kind := "to" } : SendRecipient)]
      else []) ++
      ((getRecipients s origId).filter (fun r => r.agentId != senderId)).map
        (fun r => ({ agentId := r.agentId, kind := r.kind } : SendRecipient))).find?
      (fun r => (findAgent s r.agentId).isNone) = none := by
    rw [List.find?_eq_none]
    intro r hr
    rcases List.mem_append.mp hr with hr | hr
    · by_cases hcond : (original.senderId != senderId) = true
      · rw [if_pos hcond] at hr
        have := List.mem_singleton.mp hr
        subst this
        exact isSome_not_isNone horigsender
      · rw [if_neg hcond] at hr
        cases hr
    · obtain ⟨rr, hrrmem, hrr⟩ := List.mem_map.mp hr
      subst hrr
      exact isSome_not_isNone (hrecips rr (List.mem_of_mem_filter hrrmem))
  have hmsg : msgSendMessage s { senderId := senderId, recipients := (if original.senderId != senderId then [({ agentId := original.senderId, kind := "to" } : SendRecipient)] else []) ++ ((getRecipients s origId).filter (fun r => r.agentId != senderId)).map (fun r => ({ agentId := r.agentId, kind := r.kind } : SendRecipient)), subject := "Re: " ++ original.subject, body := body, threadId := some original.threadId, importance := some original.importance, requiresAck := none, ackTtlSeconds := none, attachments := att, enforceContactPolicy := none } t u = .ok ({ id := s.nextMessageId, projectId := sender.projectId, senderId := senderId, threadId := original.threadId, subject := "Re: " ++ original.subject, body := body, importance := original.importance, requiresAck := false, ackTtlSeconds := none, attachments := att.getD [], createdTs := t }, { s with messages := s.messages ++ [{ id := s.nextMessageId, projectId := sender.projectId, senderId := senderId, threadId := original.threadId, subject := "Re: " ++ original.subject, body := body, importance := original.importance, requiresAck := false, ackTtlSeconds := none, attachments := att.getD [], createdTs := t }], recipients := s.recipients ++ ((if original.senderId != senderId then [({ agentId := original.senderId, kind := "to" } : SendRecipient)] else []) ++ ((getRecipients s origId).filter (fun r => r.agentId != senderId)).map (fun r => ({ agentId := r.agentId, kind := r.kind } : SendRecipient))).map (fun r => ({ messageId := s.nextMessageId, agentId := r.agentId, kind := r.kind, readTs := none, ackTs := none } : MessageRecipientRow)), nextMessageId := s.nextMessageId + 1 }) := by
    simp only [msgSendMessage, hsender, hvalid, Option.getD_some, Option.getD_none]
  refine ⟨_, _, Eq.trans (by simp only [replyMessage, horig]) hmsg, rfl, rfl, rfl, rfl, ?_⟩
  simp only [List.map_append, List.map_map]
  congr 1
  by_cases hcond : (original.senderId != senderId) = true
  · rw [if_pos hcond, if_pos hcond]
    rfl
  · rw [if_neg hcond, if_neg hcond]
    rfl

/-- Witness for C9: agent 2 replying to `msgC9` produces a reply in the same
thread with the prefixed subject. -/
theorem replyMessage_builds_reply_witness :
    ∃ m s2, replyMessage dbC9 1 2 "re-body" none 5 "u" = .ok (m, s2) ∧
      m.subject = "Re: hello" ∧ m.threadId = "th" := by
  obtain ⟨m, s2, hok, hsub, hth, _, _, _⟩ :=
    replyMessage_builds_reply dbC9 1 2 "re-body" none 5 "u" msgC9 rfl
      (mkAgent 2 1 "p" "open") rfl (by decide) (by decide)
  refine ⟨m, s2, hok, ?_, ?_⟩
  · rw [hsub]; rfl
  · rw [hth]; rfl

end AgentMail
namespace AgentMail

theorem tokensMatch_leadingLits_prefix : ∀ (ts : List Tok) (s : List Char),
    tokensMatch ts s = true → leadingLits ts <+: s
  | [], s, _ => List.nil_prefix
  | Tok.lit c :: ts, s, h => by
    cases s with
    | nil => simp [tokensMatch] at h
    | cons d r =>
      rw [tokensMatch] at h
      simp only [Bool.and_eq_true, beq_iff_eq] at h
      obtain ⟨rfl, h2⟩ := h
      have ih := tokensMatch_leadingLits_prefix ts r h2
      show c :: leadingLits ts <+: c :: r
      exact List.cons_prefix_cons.mpr ⟨rfl, ih⟩
  | Tok.oneNonSlash :: ts, s, _ => List.nil_prefix
  | Tok.anyNonSlashStar :: ts, s, _ => List.nil_prefix
  | Tok.anyStar :: ts, s, _ => List.nil_prefix
  | Tok.anyStarSlashOpt :: ts, s, _ => List.nil_prefix
  | Tok.cls neg content :: ts, s, _ => List.nil_prefix

theorem leadingLits_compileGlob (p : List Char) :
    leadingLits (compileGlob p) = p.takeWhile notWild := by
  induction p using compileGlob.induct with
  | case1 => simp [compileGlob, leadingLits]
  | case2 rest ih => simp [compileGlob, leadingLits, List.takeWhile, notWild]
  | case3 rest hne ih =>
    rcases rest with _ | ⟨r0, rrest⟩
    · simp [compileGlob, leadingLits, List.takeWhile, notWild]
    · have : r0 ≠ '/' := fun hc => hne rrest (by rw [hc])
      simp [compileGlob, leadingLits, List.takeWhile, notWild, this]
  | case4 rest h1 h2 ih =>
    rcases rest with _ | ⟨r0, rrest⟩
    · simp [compileGlob, leadingLits, List.takeWhile, notWild]
    · have : r0 ≠ '*' := fun hc => h2 rrest (by rw [hc])
      simp [compileGlob, leadingLits, List.takeWhile, notWild, this]
  | case5 rest ih => simp [compileGlob, leadingLits, List.takeWhile, notWild]
  | case6 rest ih => simp [compileGlob, leadingLits, List.takeWhile, notWild]
  | case7 rest ih => simp [compileGlob, leadingLits, List.takeWhile, notWild]
  | case8 rest h1 h2 ih =>
    rcases rest with _ | ⟨r0, rrest⟩
    · simp [compileGlob, leadingLits, List.takeWhile, notWild]
    · have hb : r0 ≠ '!' := fun hc => h1 rrest (by rw [hc])
      have hc : r0 ≠ '^' := fun hcc => h2 rrest (by rw [hcc])
      simp [compileGlob, leadingLits, List.takeWhile, notWild, hb, hc]
  | case9 c rest h1 h2 h3 h4 h5 h6 h7 ih =>
    have hb1 : (c == '*') = false := by simpa using fun hc => h3 hc
    have hb2 : (c == '?') = false := by simpa using fun hc => h4 hc
    have hb3 : (c == '[') = false := by simpa using fun hc => h7 hc
    simp [compileGlob, leadingLits, List.takeWhile, notWild, hb1, hb2, hb3, ih]

end AgentMail

namespace AgentMail

theorem splitSlash_ne_nil (l : List Char) : splitSlash l ≠ [] := by
  induction l with
  | nil => simp [splitSlash]
  | cons c rest ih =>
    rw [splitSlash]
    split
    · simp
    · rcases hs : splitSlash rest with _ | ⟨seg, segs⟩
      · exact absurd hs ih
      · simp

theorem joinSlash_cons (x : List Char) (xs : List (List Char)) (h : xs ≠ []) :
    joinSlash (x :: xs) = x ++ '/' :: joinSlash xs := by
  rcases xs with _ | ⟨y, ys⟩
  · exact absurd rfl h
  · rfl

theorem joinSlash_splitSlash (l : List Char) : joinSlash (splitSlash l) = l := by
  induction l with
  | nil => simp [splitSlash, joinSlash]
  | cons c rest ih =>
    rw [splitSlash]
    split
    · rename_i hc
      rw [joinSlash_cons _ _ (splitSlash_ne_nil rest), ih, hc]
      rfl
    · rcases hs : splitSlash rest with _ | ⟨seg, segs⟩
      · exact absurd hs (splitSlash_ne_nil rest)
      · rw [hs] at ih
        rcases segs with _ | ⟨t, ts⟩
        · show joinSlash [c :: seg] = c :: rest
          have : joinSlash [seg] = rest := ih
          simp [joinSlash] at this ⊢
          rw [this]
        · rw [joinSlash_cons _ _ (by simp), List.cons_append,
            ← joinSlash_cons seg (t :: ts) (by simp), ih]

theorem joinSlash_prefix_append : ∀ (A B : List (List Char)),
    joinSlash A <+: joinSlash (A ++ B)
  | [], _ => List.nil_prefix
  | [a], B => by
    rcases B with _ | ⟨b, bs⟩
    · simp
    · show a <+: joinSlash (a :: b :: bs)
      rw [joinSlash_cons _ _ (by simp)]
      exact List.prefix_append a _
  | a :: a2 :: as, B => by
    obtain ⟨t, ht⟩ := joinSlash_prefix_append (a2 :: as) B
    refine ⟨t, ?_⟩
    show (a ++ '/' :: joinSlash (a2 :: as)) ++ t = joinSlash (a :: (a2 :: as ++ B))
    rw [joinSlash_cons a _ (by simp), List.append_assoc, List.cons_append, ht]

theorem segIsStatic_chars {seg : List Char} (h : segIsStatic seg = true) :
    ∀ c ∈ seg, notWild c = true := by
  intro c hc
  rw [segIsStatic] at h
  simp only [Bool.not_eq_true', Bool.or_eq_false_iff, List.contains] at h
  rw [notWild]
  simp only [Bool.not_eq_true', Bool.or_eq_false_iff, beq_eq_false_iff_ne, ne_eq]
  refine ⟨⟨?_, ?_⟩, ?_⟩ <;> intro hcc <;> subst hcc
  · have h2 := List.elem_iff.mpr hc
    rw [h.1.1] at h2
    cases h2
  · have h2 := List.elem_iff.mpr hc
    rw [h.1.2] at h2
    cases h2
  · have h2 := List.elem_iff.mpr hc
    rw [h.2] at h2
    cases h2

end AgentMail

namespace AgentMail

theorem joinSlash_mem : ∀ (L : List (List Char)) (c : Char), c ∈ joinSlash L →
    c = '/' ∨ ∃ seg ∈ L, c ∈ seg
  | [], c, h => by cases h
  | [a], c, h => Or.inr ⟨a, by simp, h⟩
  | a :: a2 :: as, c, h => by
    rw [joinSlash_cons a _ (by simp)] at h
    rcases List.mem_append.mp h with h | h
    · exact Or.inr ⟨a, by simp, h⟩
    · rcases List.mem_cons.mp h with rfl | h
      · exact Or.inl rfl
      · rcases joinSlash_mem (a2 :: as) c h with h | ⟨seg, hseg, hc⟩
        · exact Or.inl h
        · exact Or.inr ⟨seg, List.mem_cons_of_mem _ hseg, hc⟩

theorem getBasePath_data (p : String) :
    (getBasePath p).data = joinSlash ((splitSlash p.data).takeWhile segIsStatic) := rfl

theorem prefix_getBasePath (p : String) : (getBasePath p).data <+: p.data := by
  rw [getBasePath_data]
  conv_rhs => rw [← joinSlash_splitSlash p.data]
  conv_rhs => rw [← List.takeWhile_append_dropWhile (p := segIsStatic) (l := splitSlash p.data)]
  exact joinSlash_prefix_append _ _

theorem getBasePath_notWild (p : String) :
    ∀ c ∈ (getBasePath p).data, notWild c = true := by
  intro c hc
  rw [getBasePath_data] at hc
  rcases joinSlash_mem _ c hc with rfl | ⟨seg, hseg, hcin⟩
  · rfl
  · exact segIsStatic_chars (List.mem_takeWhile_imp hseg) c hcin

theorem prefix_takeWhile_of_all {P : Char → Bool} :
    ∀ (l1 l : List Char), l1 <+: l → (∀ c ∈ l1, P c = true) → l1 <+: l.takeWhile P
  | [], l, _, _ => List.nil_prefix
  | c :: l1, l, h, hall => by
    obtain ⟨t, rfl⟩ := h
    rw [List.cons_append, List.takeWhile_cons, hall c (by simp)]
    exact List.cons_prefix_cons.mpr
      ⟨rfl, prefix_takeWhile_of_all l1 (l1 ++ t) (List.prefix_append l1 t)
        (fun d hd => hall d (List.mem_cons_of_mem _ hd))⟩

theorem globMatches_basePrefix (p q : String) (h : globMatches p q = true) :
    (getBasePath p).data <+: q.data := by
  rw [globMatches] at h
  have h1 := tokensMatch_leadingLits_prefix _ _ h
  rw [leadingLits_compileGlob] at h1
  exact (prefix_takeWhile_of_all _ _ (prefix_getBasePath p) (getBasePath_notWild p)).trans h1

theorem globMatches_related (p q : String) (h : globMatches p q = true) :
    (strStartsWith (getBasePath p) (getBasePath q)
      || strStartsWith (getBasePath q) (getBasePath p)) = true := by
  rcases List.prefix_or_prefix_of_prefix (globMatches_basePrefix p q h) (prefix_getBasePath q)
    with hp | hp
  · apply Bool.or_eq_true_iff.mpr
    exact Or.inr (by rw [strStartsWith]; exact List.isPrefixOf_iff_prefix.mpr hp)
  · apply Bool.or_eq_true_iff.mpr
    exact Or.inl (by rw [strStartsWith]; exact List.isPrefixOf_iff_prefix.mpr hp)

end AgentMail

namespace AgentMail

theorem lastSlashPos_none_not_mem : ∀ (l : List Char), lastSlashPos l = none → '/' ∉ l
  | [], _, h => by cases h
  | c :: rest, h, hmem => by
    rw [lastSlashPos] at h
    rcases hr : lastSlashPos rest with _ | j
    · rw [hr] at h
      rcases List.mem_cons.mp hmem with rfl | hmem2
      · simp at h
      · exact lastSlashPos_none_not_mem rest hr hmem2
    · rw [hr] at h; cases h

theorem lastSlashPos_some_decomp : ∀ (l : List Char) (i : Nat), lastSlashPos l = some i →
    ∃ a b, l = a ++ '/' :: b ∧ a.length = i ∧ '/' ∉ b
  | [], i, h => by cases h
  | c :: rest, i, h => by
    rw [lastSlashPos] at h
    rcases hr : lastSlashPos rest with _ | j
    · rw [hr] at h
      by_cases hc : c = '/'
      · rw [if_pos hc] at h
        subst hc
        obtain rfl : i = 0 := by cases h; rfl
        exact ⟨[], rest, rfl, rfl, lastSlashPos_none_not_mem rest hr⟩
      · rw [if_neg hc] at h; cases h
    · rw [hr] at h
      obtain rfl : i = j + 1 := by cases h; rfl
      obtain ⟨a, b, rfl, hlen, hnb⟩ := lastSlashPos_some_decomp rest j hr
      exact ⟨c :: a, b, rfl, by simp [hlen], hnb⟩

theorem getDirectory_data (p : String) (i : Nat) (h : lastSlashPos p.data = some i) :
    (getDirectory p).data = p.data.take i := by
  simp only [getDirectory, h]
  by_cases h0 : 0 < i
  · rw [if_pos h0]
  · rw [if_neg h0]
    obtain rfl : i = 0 := by omega
    simp

theorem getFileName_data_some (p : String) (i : Nat) (h : lastSlashPos p.data = some i) :
    (getFileName p).data = p.data.drop (i + 1) := by
  rw [getFileName, h]

theorem hasStarStar_append_slash : ∀ (x y : List Char),
    hasStarStar (x ++ '/' :: y) = (hasStarStar x || hasStarStar y)
  | [], y => by
    rcases y with _ | ⟨d, ys⟩
    · simp [hasStarStar]
    · simp [hasStarStar]
  | [c], y => by
    rcases y with _ | ⟨d, ys⟩
    · simp [hasStarStar]
    · show hasStarStar (c :: '/' :: d :: ys) = _
      rw [hasStarStar, hasStarStar]
      simp [hasStarStar]
  | c :: d :: xs, y => by
    show hasStarStar (c :: d :: (xs ++ '/' :: y)) = _
    rw [hasStarStar]
    have ih := hasStarStar_append_slash (d :: xs) y
    rw [List.cons_append] at ih
    rw [ih, hasStarStar, Bool.or_assoc]

theorem hasStarStar_joinSlash : ∀ (L : List (List Char)),
    hasStarStar (joinSlash L) = L.any hasStarStar
  | [] => by simp [joinSlash, hasStarStar]
  | [a] => by simp [joinSlash]
  | a :: a2 :: as => by
    rw [joinSlash_cons a _ (by simp), hasStarStar_append_slash,
      hasStarStar_joinSlash (a2 :: as)]
    simp

theorem hasStarStar_contains_star : ∀ (l : List Char), hasStarStar l = true → '*' ∈ l
  | [], h => by simp [hasStarStar] at h
  | [c], h => by simp [hasStarStar] at h
  | c :: d :: rest, h => by
    rw [hasStarStar] at h
    rcases Bool.or_eq_true_iff.mp h with h | h
    · have hcd : c = '*' ∧ d = '*' := by simpa using h
      obtain ⟨rfl, _⟩ := hcd
      exact List.mem_cons_self _ _
    · exact List.mem_cons_of_mem _ (hasStarStar_contains_star (d :: rest) h)

theorem segIsStatic_false_of_starstar (seg : List Char) (h : hasStarStar seg = true) :
    segIsStatic seg = false := by
  rw [segIsStatic]
  have hm := List.elem_iff.mpr (hasStarStar_contains_star seg h)
  simp only [List.contains] at hm ⊢
  rw [hm]
  rfl

theorem takeWhile_append_all {α : Type} (P : α → Bool) : ∀ (E r : List α),
    (∀ e ∈ E, P e = true) → (E ++ r).takeWhile P = E ++ r.takeWhile P
  | [], r, _ => rfl
  | x :: E, r, hall => by
    have hx := hall x (List.mem_cons_self x E)
    simp only [List.cons_append, List.takeWhile_cons, hx, if_true]
    rw [takeWhile_append_all P E r (fun e he => hall e (List.mem_cons_of_mem _ he))]

theorem takeWhile_append_break {α : Type} (P : α → Bool) : ∀ (E r : List α) (e : α),
    e ∈ E → P e = false → (E ++ r).takeWhile P = E.takeWhile P
  | [], _, e, he, _ => by cases he
  | x :: E, r, e, he, hPe => by
    rcases hx : P x with _ | _
    · simp [List.cons_append, List.takeWhile_cons, hx]
    · rcases List.mem_cons.mp he with rfl | he2
      · rw [hx] at hPe; cases hPe
      · simp only [List.cons_append, List.takeWhile_cons, hx, if_true]
        rw [takeWhile_append_break P E r e he2 hPe]

end AgentMail

namespace AgentMail

theorem splitSlash_append_slash : ∀ (a b : List Char),
    splitSlash (a ++ '/' :: b) = splitSlash a ++ splitSlash b
  | [], b => by
    show splitSlash ('/' :: b) = splitSlash [] ++ splitSlash b
    simp [splitSlash]
  | c :: a, b => by
    by_cases hc : c = '/'
    · subst hc
      show splitSlash ('/' :: (a ++ '/' :: b)) = splitSlash ('/' :: a) ++ splitSlash b
      simp [splitSlash, splitSlash_append_slash a b]
    · show splitSlash (c :: (a ++ '/' :: b)) = splitSlash (c :: a) ++ splitSlash b
      simp only [splitSlash, if_neg hc, splitSlash_append_slash a b]
      rcases hs : splitSlash a with _ | ⟨seg, segs⟩
      · exact absurd hs (splitSlash_ne_nil a)
      · simp [hs]

theorem splitSlash_no_slash : ∀ (l : List Char), '/' ∉ l → splitSlash l = [l]
  | [], _ => rfl
  | c :: rest, h => by
    have hc : ¬c = '/' := fun hcc => h (by rw [hcc]; exact List.mem_cons_self _ _)
    simp only [splitSlash, if_neg hc,
      splitSlash_no_slash rest (fun hm => h (List.mem_cons_of_mem _ hm))]

theorem related_of_prefix (p1 p2 : String)
    (h : (getBasePath p1).data <+: (getBasePath p2).data ∨
         (getBasePath p2).data <+: (getBasePath p1).data) :
    (strStartsWith (getBasePath p1) (getBasePath p2)
      || strStartsWith (getBasePath p2) (getBasePath p1)) = true := by
  rcases h with h | h
  · exact Bool.or_eq_true_iff.mpr (Or.inr (List.isPrefixOf_iff_prefix.mpr h))
  · exact Bool.or_eq_true_iff.mpr (Or.inl (List.isPrefixOf_iff_prefix.mpr h))

end AgentMail

namespace AgentMail

theorem dirEq_starstar_related (p1 p2 : String)
    (hdir : getDirectory p1 = getDirectory p2)
    (hss : hasStarStar p1.data = true) :
    (strStartsWith (getBasePath p1) (getBasePath p2)
      || strStartsWith (getBasePath p2) (getBasePath p1)) = true := by
  have hdirdata := congrArg String.data hdir
  have hssAny : (splitSlash p1.data).any hasStarStar = true := by
    rw [← hasStarStar_joinSlash, joinSlash_splitSlash]; exact hss
  obtain ⟨sseg, hmem, hstar⟩ := List.any_eq_true.mp hssAny
  rcases h1 : lastSlashPos p1.data with _ | i1
  · have hns := lastSlashPos_none_not_mem _ h1
    have hsplit : splitSlash p1.data = [p1.data] := splitSlash_no_slash _ hns
    rw [hsplit] at hmem
    have hseq : sseg = p1.data := by simpa using hmem
    subst hseq
    have hb1 : (getBasePath p1).data = [] := by
      rw [getBasePath_data, hsplit]
      simp [List.takeWhile_cons, segIsStatic_false_of_starstar _ hstar, joinSlash]
    exact related_of_prefix p1 p2 (Or.inl (by rw [hb1]; exact List.nil_prefix))
  · obtain ⟨a1, b1, hp1, hlen1, hnb1⟩ := lastSlashPos_some_decomp _ _ h1
    have hd1 : (getDirectory p1).data = a1 := by
      rw [getDirectory_data p1 i1 h1, hp1, ← hlen1, List.take_left]
    rcases h2 : lastSlashPos p2.data with _ | i2
    · have hd2 : (getDirectory p2).data = [] := by
        simp only [getDirectory, h2]
      have ha1 : a1 = [] := by rw [hdirdata, hd2] at hd1; exact hd1.symm
      subst ha1
      have hsplit : splitSlash p1.data = [[], b1] := by
        rw [hp1]
        show splitSlash ([] ++ '/' :: b1) = _
        rw [splitSlash_append_slash, splitSlash_no_slash b1 hnb1]
        rfl
      rw [hsplit] at hmem
      have hsb1 : hasStarStar b1 = true := by
        rcases List.mem_cons.mp hmem with rfl | hmem2
        · simp [hasStarStar] at hstar
        · have hseq : sseg = b1 := by simpa using hmem2
          rw [← hseq]; exact hstar
      have hb : (getBasePath p1).data = [] := by
        have h0 : segIsStatic ([] : List Char) = true := rfl
        have hfalse := segIsStatic_false_of_starstar b1 hsb1
        rw [getBasePath_data, hsplit]
        simp only [List.takeWhile_cons, h0, hfalse]
        simp [joinSlash]
      exact related_of_prefix p1 p2 (Or.inl (by rw [hb]; exact List.nil_prefix))
    · obtain ⟨a2, b2, hp2, hlen2, hnb2⟩ := lastSlashPos_some_decomp _ _ h2
      have hd2 : (getDirectory p2).data = a2 := by
        rw [getDirectory_data p2 i2 h2, hp2, ← hlen2, List.take_left]
      have haa : a1 = a2 := by rw [hdirdata, hd2] at hd1; exact hd1.symm
      subst haa
      have hsplit1 : splitSlash p1.data = splitSlash a1 ++ [b1] := by
        rw [hp1, splitSlash_append_slash, splitSlash_no_slash b1 hnb1]
      have hsplit2 : splitSlash p2.data = splitSlash a1 ++ [b2] := by
        rw [hp2, splitSlash_append_slash, splitSlash_no_slash b2 hnb2]
      by_cases hE : ∀ e ∈ splitSlash a1, segIsStatic e = true
      · have hsb1 : hasStarStar b1 = true := by
          rw [hsplit1] at hmem
          rcases List.mem_append.mp hmem with hm | hm
          · have hfalse := segIsStatic_false_of_starstar sseg hstar
            rw [hE sseg hm] at hfalse; cases hfalse
          · have hseq : sseg = b1 := by simpa using hm
            rw [← hseq]; exact hstar
        have hbase1 : (getBasePath p1).data = joinSlash (splitSlash a1) := by
          rw [getBasePath_data, hsplit1, takeWhile_append_all _ _ _ hE]
          rw [List.takeWhile_cons, segIsStatic_false_of_starstar b1 hsb1]
          simp
        have hbase2 : (getBasePath p2).data =
            joinSlash (splitSlash a1 ++ List.takeWhile segIsStatic [b2]) := by
          rw [getBasePath_data, hsplit2, takeWhile_append_all _ _ _ hE]
        refine related_of_prefix p1 p2 (Or.inl ?_)
        rw [hbase1, hbase2]
        exact joinSlash_prefix_append _ _
      · push_neg at hE
        obtain ⟨e, hemem, hePe⟩ := hE
        have hePe2 : segIsStatic e = false := by
          rcases hq : segIsStatic e with _ | _
          · rfl
          · exact absurd hq hePe
        have hbase1 : (getBasePath p1).data =
            joinSlash ((splitSlash a1).takeWhile segIsStatic) := by
          rw [getBasePath_data, hsplit1, takeWhile_append_break _ _ _ e hemem hePe2]
        have hbase2 : (getBasePath p2).data =
            joinSlash ((splitSlash a1).takeWhile segIsStatic) := by
          rw [getBasePath_data, hsplit2, takeWhile_append_break _ _ _ e hemem hePe2]
        refine related_of_prefix p1 p2 (Or.inl ?_)
        rw [hbase1, hbase2]

end AgentMail

namespace AgentMail

/-- C8: the function `patternsOverlap` in the code refines the three-step
overlap algorithm of the spec, provided step 3 reads "the star character `*`"
rather than "a wildcard character": `specPatternsOverlapStar` is the spec
algorithm with that one amendment (base-path comparability before the two glob
cross-matches is redundant, which this equality proves), and the code computes
exactly it. The claim-faithful `specPatternsOverlap` (any wildcard in the
filename) differs from the code, witnessed by
`specPatternsOverlap_counterexample`. -/
theorem patternsOverlap_eq_specStar (p1 p2 : String) :
    patternsOverlap p1 p2 = specPatternsOverlapStar p1 p2 := by
  rw [patternsOverlap, specPatternsOverlapStar]
  by_cases hss : (hasStarStar p1.data || hasStarStar p2.data) = true
  · by_cases hpr : (strStartsWith (getBasePath p1) (getBasePath p2)
        || strStartsWith (getBasePath p2) (getBasePath p1)) = true
    · simp [hss, hpr]
    · have hg1 : globMatches p1 p2 = false := by
        rcases hq : globMatches p1 p2 with _ | _
        · rfl
        · exact absurd (globMatches_related p1 p2 hq) hpr
      have hg2 : globMatches p2 p1 = false := by
        rcases hq : globMatches p2 p1 with _ | _
        · rfl
        · have hrel := globMatches_related p2 p1 hq
          rw [Bool.or_comm] at hrel
          exact absurd hrel hpr
      have hdir : (getDirectory p1 == getDirectory p2) = false := by
        rcases hq : (getDirectory p1 == getDirectory p2) with _ | _
        · rfl
        · have hde : getDirectory p1 = getDirectory p2 := by simpa using hq
          rcases Bool.or_eq_true_iff.mp hss with hs1 | hs2
          · exact absurd (dirEq_starstar_related p1 p2 hde hs1) hpr
          · have hrel := dirEq_starstar_related p2 p1 hde.symm hs2
            rw [Bool.or_comm] at hrel
            exact absurd hrel hpr
      simp [hss, hpr, hg1, hg2, hdir]
  · simp [hss]

/-- Counterexample for the literal wording of C8: with "wildcard character"
read literally in the same-directory step, the spec algorithm declares the
patterns a/?x.ts and a/x?.ts overlapping (same directory, `?` wildcards in
both filenames) while the code returns false, so the code does not refine the
claim as stated. -/
theorem specPatternsOverlap_counterexample :
    specPatternsOverlap "a/?x.ts" "a/x?.ts" = true ∧
    patternsOverlap "a/?x.ts" "a/x?.ts" = false := by
  constructor <;>
    simp [specPatternsOverlap, patternsOverlap, hasWildcardChar, globMatches,
      compileGlob, tokensMatch, slashScan, classContains, getBasePath, getDirectory,
      getFileName, hasStarStar, strStartsWith, containsChar, splitSlash, joinSlash,
      segIsStatic, lastSlashPos, List.isPrefixOf, List.contains]

end AgentMail
